import Mathlib

/-!
Verification development for the agentgateway repository core:
the delta xDS client (crates/xds/src/client.rs) and the Anthropic
LLM translator (crates/agentgateway/src/llm/anthropic.rs).

Each Rust function relevant to the examined properties is shallowly
embedded as an executable Lean definition; stateful code is modelled
by explicit state passing. Machine-integer casts (`as u32`) are
modelled with `% 2^32` on `Nat`.
-/

/-! ## String helpers

Rust `str::contains(pat)` is substring containment; modelled over
character lists. -/

/-- Does the pattern occur at the start of the character list?
Models the prefix test underlying Rust substring search. -/
def leadsWith : List Char → List Char → Bool
  | [], _ => true
  | _ :: _, [] => false
  | a :: pa, b :: pb => a = b && leadsWith pa pb

/-- Does the pattern occur anywhere in the character list? -/
def occursIn (pat : List Char) : List Char → Bool
  | [] => leadsWith pat []
  | c :: rest => leadsWith pat (c :: rest) || occursIn pat rest

/-- Rust `str::contains`: `s.contains(pat)` as substring search. -/
def strContains (s pat : String) : Bool :=
  occursIn pat.toList s.toList

/-! ## JSON values

Model of `serde_json::Value`. Numbers are modelled as integers (no
claim examined depends on float-valued JSON numbers). Note
`serde_json::Value::default()` is `Value::Null`. -/

/-- `serde_json::Value`. -/
inductive Json where
  | null : Json
  | bool (b : Bool) : Json
  | num (n : Int) : Json
  | str (s : String) : Json
  | arr (elems : List Json) : Json
  | obj (fields : List (String × Json)) : Json

/-- `serde_json::Value::default()`, which is `Value::Null`. -/
def jsonDefault : Json := Json.null

/-! ## xDS wire model (crates/xds/src/client.rs)

`Strng` is an interned string with value equality; modelled as
`String`. Proto byte payloads are modelled as `List Nat`. -/

/-- `ResourceKey` from client.rs. -/
structure ResourceKey where
  name : String
  type_url : String
deriving DecidableEq, Repr

/-- `RejectedConfig` from client.rs; `reason` is the rendered error. -/
structure RejectedConfig where
  name : String
  reason : String
deriving DecidableEq, Repr

/-- `Display for RejectedConfig`: `"{name}: {reason}"`. -/
def RejectedConfig.display (r : RejectedConfig) : String :=
  r.name ++ ": " ++ r.reason

/-- The `Any` payload embedded in a proto `Resource`. -/
structure ProtoAny where
  type_url : String
  value : List Nat
deriving DecidableEq, Repr

/-- Proto `Resource` (`ProtoResource` in client.rs): a named, optional
payload. `resource = none` models a missing embedded resource. -/
structure ProtoResource where
  name : String
  resource : Option ProtoAny
deriving DecidableEq, Repr

/-- `DeltaDiscoveryResponse` (the fields client.rs reads). -/
structure DeltaDiscoveryResponse where
  type_url : String
  nonce : String
  resources : List ProtoResource
  removed_resources : List String
deriving DecidableEq, Repr

/-- Proto `Status` carried in `error_detail` (only the message field is
ever populated by client.rs; `code` stays at its default). -/
structure GrpcStatusMsg where
  code : Int := 0
  message : String := ""
deriving DecidableEq, Repr

/-- `DeltaDiscoveryRequest`. The `node` payload is irrelevant to every
examined property and is modelled opaquely as `Option Unit`. The
`initial_resource_versions` proto map is modelled as a finite set of
(name, version) pairs. -/
structure DeltaDiscoveryRequest where
  type_url : String := ""
  node : Option Unit := none
  resource_names_subscribe : List String := []
  resource_names_unsubscribe : List String := []
  initial_resource_versions : Finset (String × String) := ∅
  response_nonce : String := ""
  error_detail : Option GrpcStatusMsg := none
deriving DecidableEq

/-- `XdsResource<T>` from client.rs. -/
structure XdsResource (T : Type) where
  name : String
  resource : T

/-- `XdsUpdate<T>` from client.rs. -/
inductive XdsUpdate (T : Type) where
  | Update (r : XdsResource T)
  | Remove (name : String)

/-- `XdsUpdate::name`. -/
def XdsUpdate.name {T : Type} : XdsUpdate T → String
  | .Update r => r.name
  | .Remove n => n

/-- `decode_proto::<T>`: missing payloads and decode failures are
errors (rendered as strings); a decoder for `T` is passed in for the
external `prost::Message::decode`. -/
def decode_proto {T : Type} (dec : List Nat → Except String T)
    (resource : ProtoResource) : Except String (XdsResource T) :=
  match resource.resource with
  | none => .error "XDS payload without resource"
  | some res =>
    match dec res.value with
    | .error e => .error ("decode: " ++ e)
    | .ok v => .ok { name := resource.name, resource := v }

/-! ## Client state -/

/-- `State` from client.rs. The `known_resources` HashMap is modelled
as a total function defaulting to `∅` (an absent entry and an entry
holding an empty set are observationally identical in client.rs: reads
go through `get(..).unwrap_or_default()` semantics and removals through
`get_mut`). `pending` keeps only the keys; the one-shot senders carry
no data relevant to the examined properties. -/
structure ClientState where
  known_resources : String → Finset String
  pending : Finset ResourceKey

/-- The client's initial state: nothing known, nothing pending. -/
def initialClientState : ClientState :=
  { known_resources := fun _ => ∅, pending := ∅ }

/-- `State::notify_on_demand`: drain the pending entry for the key. -/
def notify_on_demand (st : ClientState) (key : ResourceKey) : ClientState :=
  { st with pending := st.pending.erase key }

/-- `State::add_resource`: insert the name into the type's entry,
creating it if absent. -/
def add_resource (st : ClientState) (type_url name : String) : ClientState :=
  let kr := Function.update st.known_resources type_url
    (insert name (st.known_resources type_url))
  { st with known_resources := kr }

/-- One iteration of the removal loop in `HandlerWrapper::handle`
(client.rs lines 154-164): delete the name from `known_resources` for
this type, then notify any on-demand waiter. -/
def applyRemove (type_url : String) (st : ClientState) (name : String) : ClientState :=
  let kr := Function.update st.known_resources type_url
    ((st.known_resources type_url).erase name)
  let st1 := { st with known_resources := kr }
  notify_on_demand st1 { name := name, type_url := type_url }

/-- One iteration of the insertion loop in `HandlerWrapper::handle`
(client.rs lines 166-173): notify any on-demand waiter, then record
the name in `known_resources`. -/
def applyAdd (type_url : String) (st : ClientState) (name : String) : ClientState :=
  let st1 := notify_on_demand st { name := name, type_url := type_url }
  add_resource st1 type_url name

/-- Merge of the handler result with accumulated decode failures, as in
the final `match` of `HandlerWrapper::handle` (lines 176-184). -/
def mergeRejects (result : Except (List RejectedConfig) Unit)
    (decode_failures : List RejectedConfig) : Except (List RejectedConfig) Unit :=
  match result, decode_failures.isEmpty with
  | .ok _, true => .ok ()
  | .ok _, false => .error decode_failures
  | .error r, true => .error r
  | .error rejects, false => .error (rejects ++ decode_failures)

/-- `HandlerWrapper::<T>::handle` (client.rs lines 114-186). The inner
typed handler `h` is the user-registered `Handler<T>`; `dec` stands for
`prost` decoding of the payload bytes. Returns the handler result
merged with decode failures, and the updated client state. -/
def handlerWrapperHandle {T : Type} (dec : List Nat → Except String T)
    (h : List (XdsUpdate T) → Except (List RejectedConfig) Unit)
    (st : ClientState) (res : DeltaDiscoveryResponse) :
    Except (List RejectedConfig) Unit × ClientState :=
  let type_url := res.type_url
  let decoded : List (Except RejectedConfig (XdsResource T)) :=
    res.resources.map (fun raw =>
      match decode_proto dec raw with
      | .error e => .error { name := raw.name, reason := e }
      | .ok v => .ok v)
  let updates : List (XdsUpdate T) :=
    (decoded.filterMap (fun d => match d with | .ok v => some v | .error _ => none)).map
      XdsUpdate.Update
      ++ res.removed_resources.map XdsUpdate.Remove
  let result := h updates
  let decode_failures : List RejectedConfig :=
    decoded.filterMap (fun d => match d with | .ok _ => none | .error e => some e)
  let st1 := res.removed_resources.foldl (applyRemove type_url) st
  let st2 := (res.resources.map ProtoResource.name).foldl (applyAdd type_url) st1
  (mergeRejects result decode_failures, st2)

/-- Processing a whole sequence of responses through
`HandlerWrapper::handle`, threading the client state. -/
def processResponses {T : Type} (dec : List Nat → Except String T)
    (h : List (XdsUpdate T) → Except (List RejectedConfig) Unit) :
    List DeltaDiscoveryResponse → ClientState → ClientState
  | [], st => st
  | r :: rs, st => processResponses dec h rs (handlerWrapperHandle dec h st r).2

/-! ## handle_stream_event (client.rs lines 652-718) -/

/-- `XdsSignal` from client.rs. -/
inductive XdsSignal where
  | Ack
  | Nack
deriving DecidableEq, Repr

/-- A registered raw handler for one `type_url`: prost decoding plus the
typed user handler, with the payload type erased behind the update
list. One entry of `Config::handlers`. -/
structure RegisteredHandler (T : Type) where
  dec : List Nat → Except String T
  h : List (XdsUpdate T) → Except (List RejectedConfig) Unit

/-- The handler table of `Config`, keyed by `type_url` (first match
wins, as in a `HashMap` with unique keys). -/
def lookupHandler {T : Type} (handlers : List (String × RegisteredHandler T))
    (type_url : String) : Option (RegisteredHandler T) :=
  (handlers.find? (fun p => p.1 = type_url)).map Prod.snd

/-- The `handler_response` computed by `handle_stream_event`: dispatch
to the registered handler, or `Ok(())` for an unknown `type_url`. -/
def handlerResponse {T : Type} (handlers : List (String × RegisteredHandler T))
    (st : ClientState) (res : DeltaDiscoveryResponse) :
    Except (List RejectedConfig) Unit × ClientState :=
  match lookupHandler handlers res.type_url with
  | some rh => handlerWrapperHandle rh.dec rh.h st res
  | none => (.ok (), st)

/-- `AdsClient::handle_stream_event`: processes one inbound response and
returns the outbound requests pushed onto the request channel (the
source sends exactly one), the returned `XdsSignal`, and the updated
state. -/
def handle_stream_event {T : Type} (handlers : List (String × RegisteredHandler T))
    (st : ClientState) (response : DeltaDiscoveryResponse) :
    List DeltaDiscoveryRequest × XdsSignal × ClientState :=
  let type_url := response.type_url
  let nonce := response.nonce
  let hres := (handlerResponse handlers st response).1
  let st1 := (handlerResponse handlers st response).2
  let sigErr : XdsSignal × Option String :=
    match hres with
    | .error rejects =>
      (.Nack, some (String.intercalate "; " (rejects.map RejectedConfig.display)))
    | .ok _ => (.Ack, none)
  let req : DeltaDiscoveryRequest :=
    { type_url := type_url
      response_nonce := nonce
      error_detail := sigErr.2.map (fun msg => { message := msg }) }
  ([req], sigErr.1, st1)

/-! ## Initial requests on (re)connection (client.rs lines 558-579) -/

/-- The initial-request construction at the top of
`AdsClient::run_internal`: each configured initial request is cloned
and its `initial_resource_versions` is set to a map sending every name
in `known_resources[type_url]` to the empty-string version
(`unwrap_or_default` yields the empty map when the type has no entry). -/
def runInternalInitialRequests (initial_requests : List DeltaDiscoveryRequest)
    (st : ClientState) : List DeltaDiscoveryRequest :=
  initial_requests.map (fun e =>
    let irv := (st.known_resources e.type_url).image (fun n => (n, ""))
    { e with initial_resource_versions := irv })

/-! ## run_loop backoff (client.rs lines 421-544) -/

/-- `tonic::Code`, restricted to the codes `run_loop` distinguishes;
all remaining codes are collapsed into `otherCode`. -/
inductive GrpcCode where
  | cancelled
  | deadlineExceeded
  | unavailable
  | otherCode (n : Nat)
deriving DecidableEq, Repr

/-- The xDS `Error` type as matched by `run_loop`. Modelled from the
spec (§7 error taxonomy) and the match arms in client.rs: the enum
itself lives outside the provided sources. `otherError` covers every
remaining variant (e.g. `RequestFailure`). -/
inductive XdsClientError where
  | connection (addr : String) (detail : String)
  | transport (detail : String)
  | grpcStatus (code : GrpcCode) (message : String)
  | otherError (detail : String)
deriving DecidableEq, Repr

/-- `ConnectionTerminationReason` metric labels. -/
inductive ConnectionTerminationReason where
  | connectionError
  | reconnect
  | error
  | complete
deriving DecidableEq, Repr

/-- `INITIAL_BACKOFF` = 10 ms, in milliseconds. -/
def INITIAL_BACKOFF : Nat := 10

/-- `MAX_BACKOFF` = 15 s, in milliseconds. -/
def MAX_BACKOFF : Nat := 15000

/-- The backoff computation of `AdsClient::run_loop`: given the outcome
of `run_internal` and the previous backoff (both in ms), return the
next backoff and the incremented termination counter label. -/
def runLoopBackoff (outcome : Except XdsClientError Unit) (backoff : Nat) :
    Nat × ConnectionTerminationReason :=
  match outcome with
  | .error (.connection _ _) =>
    (min MAX_BACKOFF (backoff * 2), .connectionError)
  | .error (.transport _) =>
    (min MAX_BACKOFF (backoff * 2), .connectionError)
  | .error (.grpcStatus code message) =>
    if code = .cancelled ∨ code = .deadlineExceeded
        ∨ (code = .unavailable ∧ strContains message "transport is closing" = true)
        ∨ (code = .unavailable ∧ strContains message "received prior goaway" = true) then
      (INITIAL_BACKOFF, .reconnect)
    else
      (min MAX_BACKOFF (backoff * 2), .error)
  | .error (.otherError _) => (INITIAL_BACKOFF, .error)
  | .ok _ => (INITIAL_BACKOFF, .complete)

/-! ## Universal (OpenAI-style) chat schema

The `universal` module re-exports OpenAI-compatible types; the subset
read or written by the Anthropic translator is modelled here. Fields
the translator always leaves at `None` are modelled as `Option Unit`.
-/

namespace Universal

/-- Universal message roles. -/
inductive Role where
  | system
  | user
  | assistant
  | tool
deriving DecidableEq, Repr

/-- Universal finish reasons (`async_openai::types::FinishReason`). -/
inductive FinishReason where
  | stop
  | length
  | toolCalls
  | contentFilter
  | functionCall
deriving DecidableEq, Repr

/-- `universal::ToolType` (always `function`). -/
inductive ToolType where
  | function
deriving DecidableEq, Repr

/-- `universal::FunctionCall` on a response tool call. -/
structure FunctionCall where
  name : String
  arguments : String
deriving DecidableEq, Repr

/-- `universal::MessageToolCall`. -/
structure MessageToolCall where
  id : String
  type : ToolType
  function : FunctionCall
deriving DecidableEq, Repr

/-- `universal::Usage`. The `*_details` fields are always `None` in the
translator. -/
structure Usage where
  prompt_tokens : Nat
  completion_tokens : Nat
  total_tokens : Nat
  prompt_tokens_details : Option Unit := none
  completion_tokens_details : Option Unit := none
deriving DecidableEq, Repr

/-- `universal::ResponseMessage`. -/
structure ResponseMessage where
  role : Role
  content : Option String
  tool_calls : Option (List MessageToolCall)
  function_call : Option Unit := none
  refusal : Option String := none
  audio : Option Unit := none
deriving DecidableEq, Repr

/-- `universal::ChatChoice`. -/
structure ChatChoice where
  index : Nat
  message : ResponseMessage
  finish_reason : Option FinishReason
  logprobs : Option Unit := none
deriving DecidableEq, Repr

/-- `universal::Response`. -/
structure Response where
  id : String
  object : String
  created : Nat
  model : String
  choices : List ChatChoice
  usage : Option Usage
  service_tier : Option Unit := none
  system_fingerprint : Option Unit := none
deriving DecidableEq, Repr

/-- `universal::StreamResponseDelta`. `tool_calls`, `refusal` and the
deprecated `function_call` are never populated by this translator. -/
structure StreamResponseDelta where
  role : Option Role := none
  content : Option String := none
  refusal : Option Unit := none
  function_call : Option Unit := none
  tool_calls : Option Unit := none
deriving DecidableEq, Repr

/-- `universal::ChatChoiceStream`. -/
structure ChatChoiceStream where
  index : Nat
  logprobs : Option Unit := none
  delta : StreamResponseDelta
  finish_reason : Option FinishReason := none
deriving DecidableEq, Repr

/-- `universal::StreamResponse`. -/
structure StreamResponse where
  id : String
  model : String
  object : String
  system_fingerprint : Option Unit := none
  service_tier : Option Unit := none
  created : Nat
  choices : List ChatChoiceStream
  usage : Option Usage
deriving DecidableEq, Repr

/-- Modelled from the spec: a universal request message has a role and
textual content that may be null (spec §3). The helpers
`universal::message_role` / `universal::message_text` (whose source is
not under src/) are modelled as the two field projections. -/
structure Message where
  role : Role
  content : Option String
deriving DecidableEq, Repr

/-- `universal::message_role` (modelled from the spec, see `Message`). -/
def message_role (m : Message) : Role := m.role

/-- `universal::message_text` (modelled from the spec, see `Message`). -/
def message_text (m : Message) : Option String := m.content

/-- The function payload of a universal tool definition
(`FunctionObject`): `parameters` is an optional JSON schema. -/
structure FunctionObject where
  name : String
  description : Option String
  parameters : Option Json

/-- A universal tool definition: `tool.function` is all the translator
reads. -/
structure ToolDef where
  function : FunctionObject

/-- `universal::NamedToolChoice`-style tool choice options. -/
inductive ToolChoiceOption where
  | auto
  | required
  | noneChoice
  | named (name : String)

/-- The universal request (the fields `translate_request` reads).
`max_tokens` and `stop` are modelled post-normalisation: the helpers
`universal::max_tokens` / `universal::stop_sequence` are not under
src/ and are modelled from the spec as reading these fields.
`temperature` and `top_p` pass through untouched. -/
structure Request where
  model : String
  messages : List Message
  tools : Option (List ToolDef)
  tool_choice : Option ToolChoiceOption := none
  max_tokens : Nat := 0
  stop : List String := []
  stream : Option Bool := none
  temperature : Option Float := none
  top_p : Option Float := none
  user : Option String := none

/-- Modelled from the spec: helper `universal::max_tokens` normalises
the request's max_tokens. -/
def max_tokens (req : Request) : Nat := req.max_tokens

/-- Modelled from the spec: helper `universal::stop_sequence` normalises
the request's stop field into a list. -/
def stop_sequence (req : Request) : List String := req.stop

end Universal

/-! ## Anthropic provider types (anthropic.rs `mod types`) -/

/-- `types::Role`. -/
inductive ARole where
  | user
  | assistant
deriving DecidableEq, Repr

/-- `types::ContentBlock`. -/
inductive ContentBlock where
  | text (text : String)
  | image (source : String) (media_type : String) (data : String)
  | toolUse (id : String) (name : String) (input : Json)
  | toolResult (tool_use_id : String) (content : String)

/-- `types::Message`. -/
structure AMessage where
  role : ARole
  content : List ContentBlock

/-- `types::Usage` (Anthropic usage). -/
structure AUsage where
  input_tokens : Nat
  output_tokens : Nat
deriving DecidableEq, Repr

/-- `types::StopReason`. -/
inductive StopReason where
  | endTurn
  | maxTokens
  | stopSequence
  | toolUse
  | refusal
deriving DecidableEq, Repr

/-- `types::MessagesResponse`. -/
structure MessagesResponse where
  id : String
  type : String
  role : ARole
  content : List ContentBlock
  model : String
  stop_reason : Option StopReason
  stop_sequence : Option String
  usage : AUsage

/-- `types::Tool`. -/
structure ATool where
  name : String
  description : Option String
  input_schema : Json

/-- `types::ToolChoice`. -/
inductive AToolChoice where
  | auto
  | any
  | tool (name : String)
  | noneChoice

/-- `types::Metadata` (a flattened string map; built from at most one
`user_id` entry). -/
structure AMetadata where
  fields : List (String × String)

/-- `types::MessagesRequest`. -/
structure AMessagesRequest where
  messages : List AMessage
  system : String
  model : String
  max_tokens : Nat
  stop_sequences : List String
  stream : Bool
  temperature : Option Float
  top_p : Option Float
  top_k : Option Nat
  tools : Option (List ATool)
  tool_choice : Option AToolChoice
  metadata : Option AMetadata

/-! ## translate_stop_reason / translate_response (anthropic.rs 169-333) -/

/-- `translate_stop_reason`. -/
def translate_stop_reason : StopReason → Universal.FinishReason
  | .endTurn => .stop
  | .maxTokens => .length
  | .stopSequence => .stop
  | .toolUse => .toolCalls
  | .refusal => .contentFilter

/-- One step of the content-block loop in `translate_response`:
accumulates tool calls and (over)writes the content with each `Text`
block. `render` stands for `serde_json::to_string`, which is
infallible on `serde_json::Value` (object keys are strings), so the
`continue`-on-failure branch of the source is dead and every `ToolUse`
block is pushed. -/
def collectBlock (render : Json → String)
    (acc : List Universal.MessageToolCall × Option String) (block : ContentBlock) :
    List Universal.MessageToolCall × Option String :=
  match block with
  | .text text => (acc.1, some text)
  | .image _ _ _ => acc
  | .toolUse id name input =>
    (acc.1 ++ [{ id := id, type := .function,
                 function := { name := name, arguments := render input } }], acc.2)
  | .toolResult _ _ => acc

/-- `2^32`, the modulus of the `as u32` casts. -/
def U32MOD : Nat := 4294967296

/-- `translate_response` (anthropic.rs lines 169-239). `render` stands
for `serde_json::to_string`; `now` is the wall-clock unix timestamp
(`chrono::Utc::now().timestamp() as u32`) captured at translation
time. -/
def translate_response (render : Json → String) (now : Nat)
    (resp : MessagesResponse) : Universal.Response :=
  let tc := resp.content.foldl (collectBlock render) ([], none)
  let message : Universal.ResponseMessage :=
    { role := .assistant
      content := tc.2
      tool_calls := if tc.1.isEmpty then none else some tc.1 }
  let finish_reason := resp.stop_reason.map translate_stop_reason
  let choice : Universal.ChatChoice :=
    { index := 0, message := message, finish_reason := finish_reason }
  let usage : Universal.Usage :=
    { prompt_tokens := resp.usage.input_tokens % U32MOD
      completion_tokens := resp.usage.output_tokens % U32MOD
      total_tokens := (resp.usage.input_tokens + resp.usage.output_tokens) % U32MOD }
  { id := resp.id
    object := "chat.completion"
    created := now
    model := resp.model
    choices := [choice]
    usage := some usage }

/-! ## translate_request (anthropic.rs lines 241-323) -/

/-- `translate_request`. `unwrap_or_default()` on the optional
`parameters : Option<serde_json::Value>` yields `Value::Null`
(see `jsonDefault`). -/
def translate_request (req : Universal.Request) : AMessagesRequest :=
  let max_tokens := Universal.max_tokens req
  let stop_sequences := Universal.stop_sequence req
  let system := String.intercalate "\n"
    (req.messages.filterMap (fun msg =>
      if Universal.message_role msg = .system then Universal.message_text msg else none))
  let messages : List AMessage :=
    (req.messages.filter (fun msg => ¬ Universal.message_role msg = .system)).filterMap
      (fun msg =>
        let role : ARole :=
          match Universal.message_role msg with
          | .assistant => .assistant
          | _ => .user
        (Universal.message_text msg).map (fun s =>
          { role := role, content := [ContentBlock.text s] }))
  let tools : Option (List ATool) :=
    match req.tools with
    | some tools =>
      some (tools.map (fun tool =>
        { name := tool.function.name
          description := tool.function.description
          input_schema := tool.function.parameters.getD jsonDefault }))
    | none => none
  let metadata : Option AMetadata :=
    req.user.map (fun user => { fields := [("user_id", user)] })
  let tool_choice : Option AToolChoice :=
    match req.tool_choice with
    | some (.named name) => some (.tool name)
    | some .auto => some .auto
    | some .required => some .any
    | some .noneChoice => some .noneChoice
    | none => none
  { messages := messages
    system := system
    model := req.model
    max_tokens := max_tokens
    stop_sequences := stop_sequences
    stream := req.stream.getD false
    temperature := req.temperature
    top_p := req.top_p
    top_k := none
    tools := tools
    tool_choice := tool_choice
    metadata := metadata }

/-! ## Streaming translation (anthropic.rs lines 48-142) -/

/-- `types::ContentBlockDelta`. -/
inductive ContentBlockDeltaKind where
  | textDelta (text : String)

/-- `types::MessageDelta` payload. -/
structure MessageDeltaBody where
  stop_reason : Option StopReason
  stop_sequence : Option String

/-- `types::MessageDeltaUsage`. -/
structure MessageDeltaUsage where
  output_tokens : Nat
deriving DecidableEq, Repr

/-- `types::MessagesStreamEvent`. -/
inductive MessagesStreamEvent where
  | messageStart (message : MessagesResponse)
  | contentBlockStart (index : Nat) (content_block : ContentBlock)
  | contentBlockDelta (index : Nat) (delta : ContentBlockDeltaKind)
  | contentBlockStop (index : Nat)
  | messageDelta (delta : MessageDeltaBody) (usage : MessageDeltaUsage)
  | messageStop
  | ping

/-- The mutable locals captured by the `process_streaming` closure. -/
structure StreamState where
  message_id : Option String
  model : String
  input_tokens : Nat
  saw_token : Bool

/-- The closure state at stream start. -/
def initialStreamState : StreamState :=
  { message_id := none, model := "", input_tokens := 0, saw_token := false }

/-- `AsyncLog<LLMResponse>`: the per-request log record mutated by the
stream pipeline. `first_token` keeps the instant (modelled as a `Nat`
timestamp) of the first content token. -/
structure LLMLog where
  first_token : Option Nat := none
  output_tokens : Option Nat := none
  input_tokens_from_response : Option Nat := none
  total_tokens : Option Nat := none
  provider_model : Option String := none
deriving DecidableEq, Repr

/-- Result of handling one SSE frame: updated closure state and log,
the emitted chunk if any, and whether this step performed the
`first_token` assignment. -/
structure StepResult where
  state : StreamState
  log : LLMLog
  out : Option Universal.StreamResponse
  setFirst : Bool

/-- The `mk` helper of `process_streaming`: build a chunk from the
captured id/model/created. -/
def mkChunk (created : Nat) (s : StreamState)
    (choices : List Universal.ChatChoiceStream)
    (usage : Option Universal.Usage) : Universal.StreamResponse :=
  { id := s.message_id.getD "unknown"
    model := s.model
    object := "chat.completion.chunk"
    created := created
    choices := choices
    usage := usage }

/-- One invocation of the `process_streaming` frame closure
(anthropic.rs lines 57-140). The argument is the SSE JSON parse
result; parse errors are dropped (`f.ok()?`). `created` is the
timestamp captured at stream start and `now` the instant used for
`first_token`. -/
def streamStep (created now : Nat) (s : StreamState) (log : LLMLog) :
    Except String MessagesStreamEvent → StepResult
  | .error _ => { state := s, log := log, out := none, setFirst := false }
  | .ok ev =>
    match ev with
    | .messageStart message =>
      let s2 : StreamState :=
        { s with message_id := some message.id
                 model := message.model
                 input_tokens := message.usage.input_tokens }
      let log2 : LLMLog :=
        { log with output_tokens := some message.usage.output_tokens
                   input_tokens_from_response := some message.usage.input_tokens
                   provider_model := some message.model }
      { state := s2, log := log2, out := none, setFirst := false }
    | .contentBlockStart _ _ =>
      { state := s, log := log, out := none, setFirst := false }
    | .contentBlockDelta _ delta =>
      match delta with
      | .textDelta text =>
        let firstNow := !s.saw_token
        let s2 := { s with saw_token := true }
        let log2 := if firstNow then { log with first_token := some now } else log
        let choice : Universal.ChatChoiceStream :=
          { index := 0, delta := { content := some text } }
        { state := s2, log := log2
          out := some (mkChunk created s2 [choice] none), setFirst := firstNow }
    | .messageDelta _ usage =>
      let log2 : LLMLog :=
        { log with output_tokens := some usage.output_tokens
                   total_tokens :=
                     match log.input_tokens_from_response with
                     | some inp => some (inp + usage.output_tokens)
                     | none => log.total_tokens }
      let u : Universal.Usage :=
        { prompt_tokens := usage.output_tokens % U32MOD
          completion_tokens := s.input_tokens % U32MOD
          total_tokens := (s.input_tokens + usage.output_tokens) % U32MOD }
      { state := s, log := log2
        out := some (mkChunk created s [] (some u)), setFirst := false }
    | .contentBlockStop _ =>
      { state := s, log := log, out := none, setFirst := false }
    | .messageStop =>
      { state := s, log := log, out := none, setFirst := false }
    | .ping =>
      { state := s, log := log, out := none, setFirst := false }

/-- `process_streaming` over a whole frame sequence: returns the
emitted chunks, the final closure state, the final log, and how many
times the `first_token` assignment ran. -/
def processStream (created now : Nat) (s : StreamState) (log : LLMLog) :
    List (Except String MessagesStreamEvent) →
    List Universal.StreamResponse × StreamState × LLMLog × Nat
  | [] => ([], s, log, 0)
  | e :: rest =>
    let r := streamStep created now s log e
    let next := processStream created now r.state r.log rest
    (r.out.toList ++ next.1, next.2.1, next.2.2.1,
      (if r.setFirst then 1 else 0) + next.2.2.2)

/-! # Claim theorems -/

/-! ## C3: initial_resource_versions on (re)connection -/

/-- Claim C3: every initial request built by `run_internal` carries
`initial_resource_versions` equal to the map sending each name in
`known_resources[type]` to the empty-string version, and it is empty
when the type has no known resources (an absent map entry is modelled
as the empty set, matching `unwrap_or_default`). -/
theorem c3_initial_resource_versions (templates : List DeltaDiscoveryRequest)
    (st : ClientState) :
    ∀ req ∈ runInternalInitialRequests templates st,
      req.initial_resource_versions
          = (st.known_resources req.type_url).image (fun n => (n, "")) ∧
        (st.known_resources req.type_url = ∅ → req.initial_resource_versions = ∅) := by
  intro req hreq
  simp only [runInternalInitialRequests, List.mem_map] at hreq
  obtain ⟨e, _, rfl⟩ := hreq
  refine ⟨rfl, fun h => ?_⟩
  show (st.known_resources e.type_url).image (fun n => (n, "")) = ∅
  rw [h, Finset.image_empty]

/-- Template and state used to witness C3. -/
def exTemplateC3 : DeltaDiscoveryRequest := { type_url := "T" }

/-- State with one known resource of type "T", for the C3 witness. -/
def exStateC3 : ClientState := add_resource initialClientState "T" "a"

/-- Witness for C3 at a concrete template list and state. -/
theorem c3_witness :
    ∃ req, req ∈ runInternalInitialRequests [exTemplateC3] exStateC3 ∧
      req.initial_resource_versions
        = (exStateC3.known_resources req.type_url).image (fun n => (n, "")) := by
  have hmem : ({ exTemplateC3 with initial_resource_versions :=
      (exStateC3.known_resources exTemplateC3.type_url).image (fun n => (n, "")) }
        : DeltaDiscoveryRequest) ∈ runInternalInitialRequests [exTemplateC3] exStateC3 := by
    simp [runInternalInitialRequests]
  exact ⟨_, hmem, (c3_initial_resource_versions [exTemplateC3] exStateC3 _ hmem).1⟩

/-! ## C4: run_loop backoff policy -/

/-- Claim C4: the next backoff after `run_internal` returns is
`min(2×previous, 15 s)` for connection/transport errors and
non-transient gRPC statuses, and the 10 ms initial backoff for
transient gRPC statuses (Cancelled, DeadlineExceeded, or Unavailable
whose message mentions a closing transport or a prior goaway), for any
other error, and for a clean stream end. -/
theorem c4_run_loop_backoff (prev : Nat) :
    (∀ a d, (runLoopBackoff (.error (.connection a d)) prev).1 = min (2 * prev) 15000) ∧
    (∀ d, (runLoopBackoff (.error (.transport d)) prev).1 = min (2 * prev) 15000) ∧
    (∀ code msg,
      (code = .cancelled ∨ code = .deadlineExceeded
          ∨ (code = .unavailable ∧ (strContains msg "transport is closing" = true
              ∨ strContains msg "received prior goaway" = true))) →
        (runLoopBackoff (.error (.grpcStatus code msg)) prev).1 = 10) ∧
    (∀ code msg,
      ¬(code = .cancelled ∨ code = .deadlineExceeded
          ∨ (code = .unavailable ∧ (strContains msg "transport is closing" = true
              ∨ strContains msg "received prior goaway" = true))) →
        (runLoopBackoff (.error (.grpcStatus code msg)) prev).1 = min (2 * prev) 15000) ∧
    (∀ d, (runLoopBackoff (.error (.otherError d)) prev).1 = 10) ∧
    (runLoopBackoff (.ok ()) prev).1 = 10 := by
  refine ⟨?_, ?_, ?_, ?_, ?_, ?_⟩
  · intro a d
    simp [runLoopBackoff, MAX_BACKOFF, Nat.min_comm, Nat.mul_comm]
  · intro d
    simp [runLoopBackoff, MAX_BACKOFF, Nat.min_comm, Nat.mul_comm]
  · intro code msg h
    simp only [runLoopBackoff]
    split_ifs with hc
    · rfl
    · exact absurd (by tauto) hc
  · intro code msg h
    simp only [runLoopBackoff]
    split_ifs with hc
    · exact absurd (by tauto) h
    · simp [MAX_BACKOFF, Nat.min_comm, Nat.mul_comm]
  · intro d
    simp [runLoopBackoff, INITIAL_BACKOFF]
  · simp [runLoopBackoff, INITIAL_BACKOFF]

/-- Witness for C4 at concrete outcomes: a transient Unavailable status
resets to 10 ms, a non-transient status doubles with cap. -/
theorem c4_witness :
    (runLoopBackoff (.error (.grpcStatus .unavailable "received prior goaway")) 40).1 = 10
      ∧ (runLoopBackoff (.error (.grpcStatus (.otherCode 2) "boom")) 40).1 = min (2 * 40) 15000 := by
  refine ⟨(c4_run_loop_backoff 40).2.2.1 _ _ ?_, (c4_run_loop_backoff 40).2.2.2.1 _ _ ?_⟩
  · exact Or.inr (Or.inr ⟨rfl, Or.inr (by decide)⟩)
  · decide

/-! ## C2: ACK/NACK exclusivity and reply shape -/

/-- Claim C2: each inbound response yields exactly one outbound request,
whose `response_nonce` / `type_url` copy the response's; `error_detail`
is present iff the handler or decoding produced at least one
`RejectedConfig`, in which case its message joins the rejects'
`"name: reason"` renderings with `"; "`; the signal is `Nack` iff
`error_detail` is present. The hypothesis reflects the handler
contract (spec §3: rejects are accumulated, a non-empty vector
triggers a NACK), ruling out a degenerate handler that errors with an
empty reject list. -/
theorem c2_ack_nack_exclusivity {T : Type}
    (handlers : List (String × RegisteredHandler T))
    (st : ClientState) (response : DeltaDiscoveryResponse)
    (hne : (handlerResponse handlers st response).1 ≠ .error []) :
    (handle_stream_event handlers st response).1.length = 1 ∧
    ∀ req ∈ (handle_stream_event handlers st response).1,
      req.response_nonce = response.nonce ∧
      req.type_url = response.type_url ∧
      (req.error_detail.isSome ↔
        ∃ rejects, (handlerResponse handlers st response).1 = .error rejects
          ∧ rejects ≠ []) ∧
      (∀ rejects, (handlerResponse handlers st response).1 = .error rejects →
        req.error_detail
          = some { message :=
              String.intercalate "; " (rejects.map RejectedConfig.display) }) ∧
      ((handle_stream_event handlers st response).2.1 = .Nack
        ↔ req.error_detail.isSome) := by
  cases hres : (handlerResponse handlers st response).1 with
  | ok u =>
    refine ⟨by simp [handle_stream_event, hres], ?_⟩
    intro req hreq
    simp only [handle_stream_event, hres, List.mem_singleton] at hreq ⊢
    subst hreq
    refine ⟨rfl, rfl, ?_, ?_, ?_⟩
    · simp
    · intro rejects hr
      exact absurd hr (by simp)
    · simp
  | error rejects =>
    have hrne : rejects ≠ [] := fun h => hne (h ▸ hres)
    refine ⟨by simp [handle_stream_event, hres], ?_⟩
    intro req hreq
    simp only [handle_stream_event, hres, List.mem_singleton] at hreq ⊢
    subst hreq
    refine ⟨rfl, rfl, ?_, ?_, ?_⟩
    · simpa using hrne
    · intro rejects2 hr
      cases hr
      rfl
    · simp

/-- A registered handler (over payload type `Nat`) that rejects the
config named "a", used to witness C2's NACK path. -/
def exHandlerC2 : RegisteredHandler Nat :=
  { dec := fun _ => .ok 0
    h := fun _ => .error [{ name := "a", reason := "bad" }] }

/-- Handler table for the C2 witness. -/
def exHandlersC2 : List (String × RegisteredHandler Nat) := [("T", exHandlerC2)]

/-- Inbound response for the C2 witness. -/
def exRespC2 : DeltaDiscoveryResponse :=
  { type_url := "T", nonce := "n1", resources := [], removed_resources := [] }

/-- The outbound request produced for `exRespC2`. -/
def exReqC2 : DeltaDiscoveryRequest :=
  { type_url := "T", response_nonce := "n1"
    error_detail := some { message := "a: bad" } }

/-- Witness for C2 at a concrete rejecting handler. -/
theorem c2_witness :
    (handle_stream_event exHandlersC2 initialClientState exRespC2).1.length = 1 ∧
      exReqC2.response_nonce = exRespC2.nonce ∧
      exReqC2.error_detail.isSome = true := by
  have heval : (handlerResponse exHandlersC2 initialClientState exRespC2).1
      = .error [{ name := "a", reason := "bad" }] := rfl
  have hne : (handlerResponse exHandlersC2 initialClientState exRespC2).1 ≠ .error [] := by
    rw [heval]
    simp
  have H := c2_ack_nack_exclusivity exHandlersC2 initialClientState exRespC2 hne
  have hlist : (handle_stream_event exHandlersC2 initialClientState exRespC2).1
      = [exReqC2] := rfl
  have hmem : exReqC2 ∈ (handle_stream_event exHandlersC2 initialClientState exRespC2).1 := by
    rw [hlist]
    exact List.mem_singleton_self _
  refine ⟨H.1, (H.2 exReqC2 hmem).1, ?_⟩
  exact ((H.2 exReqC2 hmem).2.2.1).mpr
    ⟨[{ name := "a", reason := "bad" }], heval, List.cons_ne_nil _ _⟩

/-! ## C5: translate_response shape -/

/-- The text carried by a `Text` content block. -/
def textOfBlock : ContentBlock → Option String
  | .text t => some t
  | _ => none

/-- The universal tool call built from a `ToolUse` content block
(nothing for other blocks). -/
def toolCallOfBlock (render : Json → String) :
    ContentBlock → Option Universal.MessageToolCall
  | .toolUse id name input =>
    some { id := id, type := .function
           function := { name := name, arguments := render input } }
  | _ => none

/-- The text of the last `Text` block of a content list, if any. -/
def lastTextBlock (blocks : List ContentBlock) : Option String :=
  (blocks.filterMap textOfBlock).getLast?

/-- The text of the first `Text` block of a content list, if any (the
reading asserted by the original claim). -/
def firstTextBlock (blocks : List ContentBlock) : Option String :=
  (blocks.filterMap textOfBlock).head?

/-- `lastTextBlock` with an explicit fallback, matching the loop
accumulator of `translate_response`. -/
def lastTextBlockOr (blocks : List ContentBlock) (dflt : Option String) : Option String :=
  match (blocks.filterMap textOfBlock).getLast? with
  | some t => some t
  | none => dflt

theorem getLast?_cons_cases {α : Type} (a : α) (l : List α) :
    (a :: l).getLast? = match l.getLast? with
      | some x => some x
      | none => some a := by
  cases l with
  | nil => simp
  | cons b bs =>
    rw [List.getLast?_cons_cons]
    cases h : (b :: bs).getLast? with
    | none =>
      exact absurd h (by simp [← List.getLast?_isSome] at *)
    | some x => simp

theorem collectBlock_foldl_fst (render : Json → String)
    (blocks : List ContentBlock)
    (acc : List Universal.MessageToolCall × Option String) :
    (blocks.foldl (collectBlock render) acc).1
      = acc.1 ++ blocks.filterMap (toolCallOfBlock render) := by
  induction blocks generalizing acc with
  | nil => simp
  | cons b bs ih =>
    cases b <;>
      simp [collectBlock, toolCallOfBlock, ih, List.append_assoc]

theorem collectBlock_foldl_snd (render : Json → String)
    (blocks : List ContentBlock)
    (acc : List Universal.MessageToolCall × Option String) :
    (blocks.foldl (collectBlock render) acc).2 = lastTextBlockOr blocks acc.2 := by
  induction blocks generalizing acc with
  | nil => simp [lastTextBlockOr]
  | cons b bs ih =>
    cases b with
    | text t =>
      rw [List.foldl_cons]
      rw [ih]
      show lastTextBlockOr bs (some t) = lastTextBlockOr (ContentBlock.text t :: bs) acc.2
      simp only [lastTextBlockOr, List.filterMap_cons, textOfBlock]
      rw [getLast?_cons_cases]
      cases h : (bs.filterMap textOfBlock).getLast? <;> simp [h]
    | image s m d =>
      rw [List.foldl_cons]
      rw [ih]
      simp [lastTextBlockOr, collectBlock, List.filterMap_cons, textOfBlock]
    | toolUse id name input =>
      rw [List.foldl_cons]
      rw [ih]
      simp [lastTextBlockOr, collectBlock, List.filterMap_cons, textOfBlock]
    | toolResult tid c =>
      rw [List.foldl_cons]
      rw [ih]
      simp [lastTextBlockOr, collectBlock, List.filterMap_cons, textOfBlock]

theorem lastTextBlockOr_none (blocks : List ContentBlock) :
    lastTextBlockOr blocks none = lastTextBlock blocks := by
  simp only [lastTextBlockOr, lastTextBlock]
  cases h : (blocks.filterMap textOfBlock).getLast? <;> simp

/-- Claim C5, amended: `translate_response` builds a single assistant
choice whose content is the text of the LAST `Text` block (null when
there is none, in particular for zero content blocks), and whose tool
calls aggregate exactly the `ToolUse` blocks in order (`Image` and
`ToolResult` blocks contribute nothing); the aggregate is `None` when
no `ToolUse` block occurs. -/
theorem c5_translate_response_shape (render : Json → String) (now : Nat)
    (resp : MessagesResponse) :
    (translate_response render now resp).choices.length = 1 ∧
    (translate_response render now resp).choices.map (fun c => c.message.role)
      = [Universal.Role.assistant] ∧
    (translate_response render now resp).choices.map (fun c => c.message.content)
      = [lastTextBlock resp.content] ∧
    (translate_response render now resp).choices.map (fun c => c.message.tool_calls)
      = [if (resp.content.filterMap (toolCallOfBlock render)).isEmpty then none
         else some (resp.content.filterMap (toolCallOfBlock render))] := by
  have h1 := collectBlock_foldl_fst render resp.content ([], none)
  have h2 := collectBlock_foldl_snd render resp.content ([], none)
  simp only [List.nil_append] at h1
  rw [lastTextBlockOr_none] at h2
  simp [translate_response, h1, h2]

/-- Provider response with two `Text` blocks, refuting the original C5
reading (first Text block). -/
def exRespC5 : MessagesResponse :=
  { id := "id0", type := "message", role := .assistant
    content := [ContentBlock.text "a", ContentBlock.text "b"]
    model := "m", stop_reason := none, stop_sequence := none
    usage := { input_tokens := 1, output_tokens := 2 } }

/-- Counterexample to C5 as stated: on a response whose content blocks
are `[Text "a", Text "b"]`, the translated content is `"b"` (the last
Text block), not the first block's `"a"`. -/
theorem c5_counterexample :
    firstTextBlock exRespC5.content = some "a" ∧
    (translate_response (fun _ => "") 0 exRespC5).choices.map (fun c => c.message.content)
      = [some "b"] ∧
    (translate_response (fun _ => "") 0 exRespC5).choices.map (fun c => c.message.content)
      ≠ [firstTextBlock exRespC5.content] := by
  refine ⟨rfl, rfl, ?_⟩
  decide

/-! ## C6: tool mapping in translate_request -/

/-- Claim C6, amended: each universal tool maps 1:1 to a provider tool
whose `input_schema` is the tool's `parameters` when present and JSON
null when absent (`unwrap_or_default` on `Option<serde_json::Value>`
yields `Value::Null`, not an empty object). -/
theorem c6_tools_mapping (req : Universal.Request) (ts : List Universal.ToolDef)
    (h : req.tools = some ts) :
    (translate_request req).tools
      = some (ts.map (fun tool =>
          { name := tool.function.name
            description := tool.function.description
            input_schema := tool.function.parameters.getD jsonDefault })) := by
  simp [translate_request, h]

/-- A tool with no `parameters`, for C6. -/
def exToolC6 : Universal.ToolDef :=
  { function := { name := "f", description := none, parameters := none } }

/-- Universal request carrying `exToolC6`. -/
def exReqC6 : Universal.Request :=
  { model := "m", messages := [], tools := some [exToolC6] }

/-- Witness for C6 (amended) at a concrete request. -/
theorem c6_witness :
    (translate_request exReqC6).tools
      = some [{ name := "f", description := none, input_schema := jsonDefault }] := by
  exact c6_tools_mapping exReqC6 [exToolC6] rfl

/-- Counterexample to C6 as stated: with `parameters` absent the
produced `input_schema` is JSON null, not the empty JSON object. -/
theorem c6_counterexample :
    (translate_request exReqC6).tools.map (fun l => l.map (fun t => t.input_schema))
      = some [Json.null] ∧
    (some [Json.null] : Option (List Json)) ≠ some [Json.obj []] := by
  refine ⟨rfl, ?_⟩
  intro h
  simp at h

/-! ## C7: MessageDelta usage chunk -/

/-- The log record at stream start (all fields unset). -/
def initialLLMLog : LLMLog := {}

/-- `message_start` event payload with `input_tokens = 3`, for C7. -/
def exMsgStartC7 : MessagesResponse :=
  { id := "r", type := "message", role := .assistant, content := [], model := "m"
    stop_reason := none, stop_sequence := none
    usage := { input_tokens := 3, output_tokens := 0 } }

/-- C7 failing input: `message_start{input:3}` then
`message_delta{output:2}`. -/
def exEventsC7 : List (Except String MessagesStreamEvent) :=
  [.ok (.messageStart exMsgStartC7),
   .ok (.messageDelta { stop_reason := none, stop_sequence := none } { output_tokens := 2 })]

/-- Claim C7 evaluation at the failing input: the log half of the claim
holds (`output_tokens = 2`, `total_tokens = 3 + 2`), and exactly one
chunk with empty choices is emitted, but its usage is
`{prompt_tokens = 2, completion_tokens = 3, total_tokens = 5}` — the
prompt/completion labels are swapped relative to the claimed
`prompt_tokens = input_tokens = 3`, `completion_tokens = 2`. -/
theorem c7_message_delta_usage_eval :
    ((processStream 0 0 initialStreamState initialLLMLog exEventsC7).1.map
        (fun c => (c.choices.length,
          c.usage.map (fun u => (u.prompt_tokens, u.completion_tokens, u.total_tokens)))))
      = [(0, some (2, 3, 5))] ∧
    (processStream 0 0 initialStreamState initialLLMLog exEventsC7).2.2.1.output_tokens
      = some 2 ∧
    (processStream 0 0 initialStreamState initialLLMLog exEventsC7).2.2.1.input_tokens_from_response
      = some 3 ∧
    (processStream 0 0 initialStreamState initialLLMLog exEventsC7).2.2.1.total_tokens
      = some 5 ∧
    ((processStream 0 0 initialStreamState initialLLMLog exEventsC7).1.map
        (fun c => c.usage.map (fun u => (u.prompt_tokens, u.completion_tokens))))
      ≠ [some (3, 2)] := by
  refine ⟨rfl, rfl, rfl, rfl, ?_⟩
  decide

/-! ## C10: null-content messages are omitted -/

/-- Claim C10: the provider messages list keeps exactly the non-system
universal messages whose textual content is non-null; a null-content
message is omitted entirely. -/
theorem c10_null_content_omitted (req : Universal.Request) :
    (translate_request req).messages.length
      = (req.messages.filter (fun m =>
          (!(decide (Universal.message_role m = Universal.Role.system)))
            && (Universal.message_text m).isSome)).length := by
  simp only [translate_request]
  generalize req.messages = l
  induction l with
  | nil => rfl
  | cons a l ih =>
    by_cases hs : Universal.message_role a = Universal.Role.system
    · simpa [List.filter_cons, hs] using ih
    · cases ht : Universal.message_text a with
      | none => simpa [List.filter_cons, List.filterMap_cons, hs, ht] using ih
      | some s => simpa [List.filter_cons, List.filterMap_cons, hs, ht] using ih

/-! ## C8: streaming content concatenation -/

/-- The `delta.content` strings carried by one emitted chunk. -/
def chunkContents (r : Universal.StreamResponse) : List String :=
  r.choices.filterMap (fun c => c.delta.content)

/-- The text of a consumed `content_block_delta` frame (none for parse
errors and every other event kind). -/
def deltaText : Except String MessagesStreamEvent → Option String
  | .ok (.contentBlockDelta _ (.textDelta t)) => some t
  | _ => none

/-- Concatenation of a list of strings, in order. -/
def concatList : List String → String
  | [] => ""
  | s :: l => s ++ concatList l

theorem processStream_chunkContents (created now : Nat)
    (evs : List (Except String MessagesStreamEvent)) :
    ∀ (s : StreamState) (log : LLMLog),
      (processStream created now s log evs).1.flatMap chunkContents
        = evs.filterMap deltaText := by
  induction evs with
  | nil => intro s log; rfl
  | cons e rest ih =>
    intro s log
    cases e with
    | error msg => simpa [processStream, streamStep, deltaText] using ih _ _
    | ok ev =>
      cases ev with
      | messageStart m =>
        simpa [processStream, streamStep, deltaText] using ih _ _
      | contentBlockStart i b =>
        simpa [processStream, streamStep, deltaText] using ih _ _
      | contentBlockDelta i d =>
        cases d with
        | textDelta t =>
          simpa [processStream, streamStep, deltaText, mkChunk, chunkContents]
            using ih _ _
      | contentBlockStop i =>
        simpa [processStream, streamStep, deltaText] using ih _ _
      | messageDelta d u =>
        simpa [processStream, streamStep, deltaText, mkChunk, chunkContents]
          using ih _ _
      | messageStop =>
        simpa [processStream, streamStep, deltaText] using ih _ _
      | ping =>
        simpa [processStream, streamStep, deltaText] using ih _ _

/-- Claim C8: the concatenation of the `delta.content` strings of all
chunks emitted by the streaming translator equals the concatenation of
the texts of the consumed `content_block_delta` frames, in order;
every other event kind contributes no content. -/
theorem c8_streaming_monotonicity (created now : Nat) (s : StreamState)
    (log : LLMLog) (evs : List (Except String MessagesStreamEvent)) :
    concatList ((processStream created now s log evs).1.flatMap chunkContents)
      = concatList (evs.filterMap deltaText) := by
  rw [processStream_chunkContents]

/-! ## C9: first_token is set exactly once -/

/-- Is this frame a (successfully parsed) `content_block_delta`? -/
def isCbdTok (e : Except String MessagesStreamEvent) : Bool :=
  (deltaText e).isSome

theorem streamStep_setFirst (created now : Nat) (s : StreamState) (log : LLMLog)
    (e : Except String MessagesStreamEvent) :
    (streamStep created now s log e).setFirst = (isCbdTok e && !s.saw_token) := by
  cases e with
  | error msg => simp [streamStep, isCbdTok, deltaText]
  | ok ev =>
    cases ev <;> simp [streamStep, isCbdTok, deltaText]

theorem saw_token_after (created now : Nat)
    (evs : List (Except String MessagesStreamEvent)) :
    ∀ (s : StreamState) (log : LLMLog),
      (processStream created now s log evs).2.1.saw_token
        = (s.saw_token || evs.any isCbdTok) := by
  induction evs with
  | nil => intro s log; simp [processStream]
  | cons e rest ih =>
    intro s log
    cases e with
    | error msg => simp [processStream, streamStep, isCbdTok, deltaText, ih]
    | ok ev =>
      cases ev with
      | contentBlockDelta i d =>
        cases d with
        | textDelta t =>
          simp [processStream, streamStep, isCbdTok, deltaText, ih]
      | messageStart m => simp [processStream, streamStep, isCbdTok, deltaText, ih]
      | contentBlockStart i b => simp [processStream, streamStep, isCbdTok, deltaText, ih]
      | contentBlockStop i => simp [processStream, streamStep, isCbdTok, deltaText, ih]
      | messageDelta d u => simp [processStream, streamStep, isCbdTok, deltaText, ih]
      | messageStop => simp [processStream, streamStep, isCbdTok, deltaText, ih]
      | ping => simp [processStream, streamStep, isCbdTok, deltaText, ih]

theorem first_token_after (created now : Nat)
    (evs : List (Except String MessagesStreamEvent)) :
    ∀ (s : StreamState) (log : LLMLog),
      (processStream created now s log evs).2.2.1.first_token
        = if s.saw_token = false ∧ evs.any isCbdTok = true then some now
          else log.first_token := by
  induction evs with
  | nil => intro s log; simp [processStream]
  | cons e rest ih =>
    intro s log
    cases e with
    | error msg => simp [processStream, streamStep, isCbdTok, deltaText, ih]
    | ok ev =>
      cases ev with
      | contentBlockDelta i d =>
        cases d with
        | textDelta t =>
          cases hsaw : s.saw_token <;>
            simp [processStream, streamStep, isCbdTok, deltaText, ih, hsaw]
      | messageStart m => simp [processStream, streamStep, isCbdTok, deltaText, ih]
      | contentBlockStart i b => simp [processStream, streamStep, isCbdTok, deltaText, ih]
      | contentBlockStop i => simp [processStream, streamStep, isCbdTok, deltaText, ih]
      | messageDelta d u =>
        cases hin : log.input_tokens_from_response <;>
          simp [processStream, streamStep, isCbdTok, deltaText, ih, hin]
      | messageStop => simp [processStream, streamStep, isCbdTok, deltaText, ih]
      | ping => simp [processStream, streamStep, isCbdTok, deltaText, ih]

theorem setFirst_count_after (created now : Nat)
    (evs : List (Except String MessagesStreamEvent)) :
    ∀ (s : StreamState) (log : LLMLog),
      (processStream created now s log evs).2.2.2
        = if s.saw_token = false ∧ evs.any isCbdTok = true then 1 else 0 := by
  induction evs with
  | nil => intro s log; simp [processStream]
  | cons e rest ih =>
    intro s log
    cases e with
    | error msg => simp [processStream, streamStep, isCbdTok, deltaText, ih]
    | ok ev =>
      cases ev with
      | contentBlockDelta i d =>
        cases d with
        | textDelta t =>
          cases hsaw : s.saw_token <;>
            simp [processStream, streamStep, isCbdTok, deltaText, ih, hsaw]
      | messageStart m => simp [processStream, streamStep, isCbdTok, deltaText, ih]
      | contentBlockStart i b => simp [processStream, streamStep, isCbdTok, deltaText, ih]
      | contentBlockStop i => simp [processStream, streamStep, isCbdTok, deltaText, ih]
      | messageDelta d u => simp [processStream, streamStep, isCbdTok, deltaText, ih]
      | messageStop => simp [processStream, streamStep, isCbdTok, deltaText, ih]
      | ping => simp [processStream, streamStep, isCbdTok, deltaText, ih]

/-- Claim C9: starting a stream with a fresh log, `first_token` ends up
set iff at least one `ContentBlockDelta` frame was consumed, the
assignment runs exactly once on streams containing one, and — for any
split of the stream around a frame — that frame performs the
assignment iff it is the first `ContentBlockDelta`. -/
theorem c9_first_token_once (created now : Nat) (s : StreamState) (log : LLMLog)
    (evs : List (Except String MessagesStreamEvent))
    (hlog : log.first_token = none) (hsaw : s.saw_token = false) :
    ((processStream created now s log evs).2.2.1.first_token.isSome
        ↔ evs.any isCbdTok = true) ∧
    ((processStream created now s log evs).2.2.2
        = if evs.any isCbdTok = true then 1 else 0) ∧
    (∀ l1 e l2, evs = l1 ++ e :: l2 →
      ((streamStep created now (processStream created now s log l1).2.1
          (processStream created now s log l1).2.2.1 e).setFirst = true
        ↔ (isCbdTok e = true ∧ l1.any isCbdTok = false))) := by
  refine ⟨?_, ?_, ?_⟩
  · rw [first_token_after]
    by_cases hany : evs.any isCbdTok = true
    · simp [hany, hsaw]
    · simp [hany, hsaw, hlog]
  · rw [setFirst_count_after]
    simp [hsaw]
  · intro l1 e l2 _
    rw [streamStep_setFirst, saw_token_after, hsaw]
    cases he : isCbdTok e <;> cases hl : l1.any isCbdTok <;> simp [he, hl]

/-- Event sequence for the C9 witness: a ping, then two text deltas. -/
def exEventsC9 : List (Except String MessagesStreamEvent) :=
  [.ok .ping,
   .ok (.contentBlockDelta 0 (.textDelta "x")),
   .ok (.contentBlockDelta 0 (.textDelta "y"))]

/-- Witness for C9 at a concrete stream: `first_token` is set, the
assignment count is 1, and the assignment occurs at the first delta. -/
theorem c9_witness :
    ((processStream 1 2 initialStreamState initialLLMLog exEventsC9).2.2.1.first_token.isSome
        ↔ exEventsC9.any isCbdTok = true) ∧
    ((processStream 1 2 initialStreamState initialLLMLog exEventsC9).2.2.2
        = if exEventsC9.any isCbdTok = true then 1 else 0) ∧
    ((streamStep 1 2
        (processStream 1 2 initialStreamState initialLLMLog [.ok .ping]).2.1
        (processStream 1 2 initialStreamState initialLLMLog [.ok .ping]).2.2.1
        (.ok (.contentBlockDelta 0 (.textDelta "x")))).setFirst = true
      ↔ (isCbdTok (.ok (.contentBlockDelta 0 (.textDelta "x"))) = true
          ∧ [(.ok .ping : Except String MessagesStreamEvent)].any isCbdTok = false)) := by
  have H := c9_first_token_once 1 2 initialStreamState initialLLMLog exEventsC9 rfl rfl
  exact ⟨H.1, H.2.1,
    H.2.2 [.ok .ping] (.ok (.contentBlockDelta 0 (.textDelta "x")))
      [.ok (.contentBlockDelta 0 (.textDelta "y"))] rfl⟩

/-! ## C1: cache consistency -/

/-- The names listed in a response's `resources` (regardless of whether
their payload decodes). -/
def respAdds (r : DeltaDiscoveryResponse) : List String :=
  r.resources.map ProtoResource.name

/-- The response advertises name `n` for type `ty`. -/
def advertises (ty n : String) (r : DeltaDiscoveryResponse) : Prop :=
  r.type_url = ty ∧ n ∈ respAdds r

/-- The response lists name `n` among `removed_resources` for type `ty`. -/
def removesName (ty n : String) (r : DeltaDiscoveryResponse) : Prop :=
  r.type_url = ty ∧ n ∈ r.removed_resources

/-- Name `n` was at some point listed in a response's `resources` for
type `ty` and no subsequent response lists it in `removed_resources`
for `ty` — the characterisation asserted by the claim (removal in the
same response as a listing does not count as subsequent). -/
def everAdvertisedNotRemoved (rs : List DeltaDiscoveryResponse) (ty n : String) : Prop :=
  ∃ pre r post, rs = pre ++ r :: post ∧ advertises ty n r
    ∧ ∀ r2 ∈ post, ¬ removesName ty n r2

theorem eANR_nil (ty n : String) : ¬ everAdvertisedNotRemoved [] ty n := by
  rintro ⟨pre, r, post, habs, -, -⟩
  cases pre <;> simp at habs

theorem eANR_cons (r : DeltaDiscoveryResponse) (rs : List DeltaDiscoveryResponse)
    (ty n : String) :
    everAdvertisedNotRemoved (r :: rs) ty n
      ↔ (advertises ty n r ∧ ∀ r2 ∈ rs, ¬ removesName ty n r2)
        ∨ everAdvertisedNotRemoved rs ty n := by
  constructor
  · rintro ⟨pre, x, post, heq, hadv, hpost⟩
    cases pre with
    | nil =>
      simp only [List.nil_append, List.cons.injEq] at heq
      obtain ⟨rfl, rfl⟩ := heq
      exact Or.inl ⟨hadv, hpost⟩
    | cons p pre =>
      simp only [List.cons_append, List.cons.injEq] at heq
      obtain ⟨rfl, rfl⟩ := heq
      exact Or.inr ⟨pre, x, post, rfl, hadv, hpost⟩
  · rintro (⟨hadv, hpost⟩ | ⟨pre, x, post, heq, hadv, hpost⟩)
    · exact ⟨[], r, rs, rfl, hadv, hpost⟩
    · exact ⟨r :: pre, x, post, by rw [heq]; rfl, hadv, hpost⟩

theorem mem_known_removeFold (ty0 ty n : String) (names : List String) :
    ∀ st : ClientState,
      n ∈ (names.foldl (applyRemove ty0) st).known_resources ty
        ↔ n ∈ st.known_resources ty ∧ ¬(ty0 = ty ∧ n ∈ names) := by
  induction names with
  | nil => intro st; simp
  | cons a names ih =>
    intro st
    rw [List.foldl_cons, ih]
    have happ : (applyRemove ty0 st a).known_resources ty
        = if ty = ty0 then (st.known_resources ty0).erase a
          else st.known_resources ty := by
      simp [applyRemove, notify_on_demand, Function.update_apply]
    rw [happ]
    by_cases hty : ty = ty0
    · subst hty
      rw [if_pos rfl]
      simp only [Finset.mem_erase, List.mem_cons]
      tauto
    · have hty0 : ¬ ty0 = ty := fun hh => hty hh.symm
      rw [if_neg hty]
      tauto

theorem mem_known_addFold (ty0 ty n : String) (names : List String) :
    ∀ st : ClientState,
      n ∈ (names.foldl (applyAdd ty0) st).known_resources ty
        ↔ n ∈ st.known_resources ty ∨ (ty0 = ty ∧ n ∈ names) := by
  induction names with
  | nil => intro st; simp
  | cons a names ih =>
    intro st
    rw [List.foldl_cons, ih]
    have happ : (applyAdd ty0 st a).known_resources ty
        = if ty = ty0 then insert a (st.known_resources ty0)
          else st.known_resources ty := by
      simp [applyAdd, add_resource, notify_on_demand, Function.update_apply]
    rw [happ]
    by_cases hty : ty = ty0
    · subst hty
      rw [if_pos rfl]
      simp only [Finset.mem_insert, List.mem_cons]
      tauto
    · have hty0 : ¬ ty0 = ty := fun hh => hty hh.symm
      rw [if_neg hty]
      tauto

theorem mem_known_handle {T : Type} (dec : List Nat → Except String T)
    (h : List (XdsUpdate T) → Except (List RejectedConfig) Unit)
    (st : ClientState) (res : DeltaDiscoveryResponse) (ty n : String) :
    n ∈ ((handlerWrapperHandle dec h st res).2).known_resources ty
      ↔ (res.type_url = ty ∧ n ∈ respAdds res)
        ∨ (n ∈ st.known_resources ty
            ∧ ¬(res.type_url = ty ∧ n ∈ res.removed_resources)) := by
  show n ∈ ((respAdds res).foldl (applyAdd res.type_url)
      (res.removed_resources.foldl (applyRemove res.type_url) st)).known_resources ty ↔ _
  rw [mem_known_addFold, mem_known_removeFold]
  tauto

theorem processResponses_known_mem {T : Type} (dec : List Nat → Except String T)
    (h : List (XdsUpdate T) → Except (List RejectedConfig) Unit) (ty n : String) :
    ∀ (rs : List DeltaDiscoveryResponse) (st : ClientState),
      n ∈ (processResponses dec h rs st).known_resources ty
        ↔ everAdvertisedNotRemoved rs ty n
          ∨ (n ∈ st.known_resources ty ∧ ∀ r ∈ rs, ¬ removesName ty n r) := by
  intro rs
  induction rs with
  | nil =>
    intro st
    simp only [processResponses, List.not_mem_nil, IsEmpty.forall_iff,
      implies_true, and_true]
    exact ⟨fun hm => Or.inr hm,
      fun hm => hm.elim (fun habs => absurd habs (eANR_nil ty n)) id⟩
  | cons r rs ih =>
    intro st
    rw [processResponses, ih, mem_known_handle, eANR_cons, List.forall_mem_cons]
    simp only [advertises, removesName]
    tauto

/-- Claim C1: starting from the empty cache, after processing any
sequence of responses through `HandlerWrapper::handle`,
`known_resources[ty]` contains exactly the names some response listed
in `resources` for `ty` with no subsequent response listing them in
`removed_resources` for `ty`. The `resources` loop uses raw names, so
a name whose payload fails to decode is still inserted, and removal
runs before insertion, so a name in both lists of one response ends up
present. -/
theorem c1_cache_consistency {T : Type} (dec : List Nat → Except String T)
    (h : List (XdsUpdate T) → Except (List RejectedConfig) Unit)
    (rs : List DeltaDiscoveryResponse) (ty n : String) :
    n ∈ (processResponses dec h rs initialClientState).known_resources ty
      ↔ everAdvertisedNotRemoved rs ty n := by
  rw [processResponses_known_mem]
  simp [initialClientState]
